import Mathlib

/-!
Shallow embedding of the label-designer page (`src/pages/Index.tsx`).

JavaScript numbers are modelled as exact rationals (`ℚ`); the geometry
and event arithmetic of the page uses only `+`, `-`, `*`, `/`, `min`,
`max` and comparisons, all of which the embedding mirrors directly.
The `NaN` value produced by the `parseInt` / `parseFloat` builtins is
modelled as `none` of an `Option` result. All functions are total, as
the translated handlers cannot throw.
-/

namespace LabelDesigner

/-- The `ElementType` union: `"text" | "barcode" | "price"`. -/
inductive ElementType : Type
  | text
  | barcode
  | price
deriving DecidableEq, Repr

/-- The string a type interpolates into the element id template. -/
def ElementType.name : ElementType → String
  | .text => "text"
  | .barcode => "barcode"
  | .price => "price"

/-- The `LabelElement` interface. -/
structure LabelElement : Type where
  id : String
  type : ElementType
  label : String
  x : ℚ
  y : ℚ
  width : ℚ
  height : ℚ
  fontSize : ℚ
  color : String
  value : String
deriving DecidableEq, Repr

/-- The `LabelConfig` interface; `quantity` is the length handed to
`Array.from`, a non-negative count. -/
structure LabelConfig : Type where
  width : ℚ
  height : ℚ
  quantity : ℕ
deriving DecidableEq, Repr

/-- Source `mmToPx`: `(mm * 96) / 25.4`. -/
def mmToPx (mm : ℚ) : ℚ := mm * 96 / 25.4

/-- The id template `` `${type}-${Date.now()}` ``; the clock value is an
explicit parameter. -/
def mkId (t : ElementType) (now : ℕ) : String :=
  t.name ++ "-" ++ Nat.repr now

/-- The element literal built by `addElement` (the `Date.now()` call is
passed in as `now`). -/
def newElement (t : ElementType) (now : ℕ) : LabelElement where
  id := mkId t now
  type := t
  label := if t = .text then "Nome" else if t = .price then "Preço" else "Código"
  x := 10
  y := 10
  width := if t = .barcode then 120 else 100
  height := if t = .barcode then 40 else 30
  fontSize := if t = .barcode then 12 else 16
  color := "#000000"
  value := if t = .price then "R$ 0,00" else if t = .barcode then "123456789" else "Texto"

/-- The `Partial<LabelElement>` record: each field optionally present. -/
structure ElementUpdates : Type where
  id : Option String := none
  type : Option ElementType := none
  label : Option String := none
  x : Option ℚ := none
  y : Option ℚ := none
  width : Option ℚ := none
  height : Option ℚ := none
  fontSize : Option ℚ := none
  color : Option String := none
  value : Option String := none
deriving DecidableEq, Repr

/-- The spread `{ ...el, ...updates }`: fields present in `updates`
override those of `el`. -/
def mergeElement (el : LabelElement) (u : ElementUpdates) : LabelElement where
  id := u.id.getD el.id
  type := u.type.getD el.type
  label := u.label.getD el.label
  x := u.x.getD el.x
  y := u.y.getD el.y
  width := u.width.getD el.width
  height := u.height.getD el.height
  fontSize := u.fontSize.getD el.fontSize
  color := u.color.getD el.color
  value := u.value.getD el.value

/-- Source `updateElement`: `elements.map((el) => (el.id === id ? { ...el, ...updates } : el))`. -/
def updateElement (els : List LabelElement) (id : String) (u : ElementUpdates) :
    List LabelElement :=
  els.map fun el => if el.id == id then mergeElement el u else el

/-- The list part of `deleteElement`: `elements.filter((el) => el.id !== id)`. -/
def deleteFromList (els : List LabelElement) (id : String) : List LabelElement :=
  els.filter fun el => el.id != id

/-- The component state relevant to the translated handlers. -/
structure AppState : Type where
  elements : List LabelElement
  selectedElement : Option String
  draggedElement : Option String
  resizingElement : Option (String × String)
  labelConfig : LabelConfig
  showPreview : Bool
deriving DecidableEq, Repr

/-- Source `addElement` as a state transformer: append the new element and
select it. -/
def addElementOp (s : AppState) (t : ElementType) (now : ℕ) : AppState :=
  let el := newElement t now
  { s with elements := s.elements ++ [el], selectedElement := some el.id }

/-- Source `updateElement` as a state transformer. -/
def updateElementOp (s : AppState) (id : String) (u : ElementUpdates) : AppState :=
  { s with elements := updateElement s.elements id u }

/-- Source `deleteElement`: filter the list, and clear the selection when the
deleted id is the selected one. -/
def deleteElementOp (s : AppState) (id : String) : AppState :=
  { s with
    elements := deleteFromList s.elements id
    selectedElement := if s.selectedElement = some id then none else s.selectedElement }

/-- Source `setSelectedElement`. -/
def selectOp (s : AppState) (id : Option String) : AppState :=
  { s with selectedElement := id }

/-- The data of a `React.MouseEvent` used by the handlers: client
coordinates and the origin of the canvas bounding rectangle. -/
structure MouseEvent : Type where
  clientX : ℚ
  clientY : ℚ
  rectLeft : ℚ
  rectTop : ℚ
deriving DecidableEq, Repr

/-- Source `handleMouseDown`: record the drag and select the element. -/
def handleMouseDown (s : AppState) (id : String) : AppState :=
  { s with draggedElement := some id, selectedElement := some id }

/-- Source `handleResizeStart`: record the resize (id and handle) and select. -/
def handleResizeStart (s : AppState) (id : String) (handle : String) : AppState :=
  { s with resizingElement := some (id, handle), selectedElement := some id }

/-- Source `handleMouseUp` (also the `onMouseLeave` handler): clear both
interaction states. -/
def handleMouseUp (s : AppState) : AppState :=
  { s with draggedElement := none, resizingElement := none }

/-- The geometry assignment of the resize `switch` on
`resizingElement.handle`; the four `let` initialisers give the default
branch, which leaves all four fields at their current values. -/
def resizeUpdates (handle : String) (element : LabelElement) (mouseX mouseY : ℚ) :
    ElementUpdates :=
  let newWidth := element.width
  let newHeight := element.height
  let newX := element.x
  let newY := element.y
  if handle == "se" then
    { width := some (max 30 (mouseX - element.x))
      height := some (max 20 (mouseY - element.y))
      x := some newX, y := some newY }
  else if handle == "sw" then
    { width := some (max 30 (element.x + element.width - mouseX))
      height := some (max 20 (mouseY - element.y))
      x := some (min mouseX (element.x + element.width - 30))
      y := some newY }
  else if handle == "ne" then
    { width := some (max 30 (mouseX - element.x))
      height := some (max 20 (element.y + element.height - mouseY))
      x := some newX
      y := some (min mouseY (element.y + element.height - 20)) }
  else if handle == "nw" then
    { width := some (max 30 (element.x + element.width - mouseX))
      height := some (max 20 (element.y + element.height - mouseY))
      x := some (min mouseX (element.x + element.width - 30))
      y := some (min mouseY (element.y + element.height - 20)) }
  else
    { width := some newWidth, height := some newHeight, x := some newX, y := some newY }

/-- The geometry assignment of the drag branch:
`x = e.clientX - rect.left - element.width / 2` (likewise `y`), each
clamped with `Math.max(0, ·)`. -/
def dragUpdates (element : LabelElement) (e : MouseEvent) : ElementUpdates :=
  let x := e.clientX - e.rectLeft - element.width / 2
  let y := e.clientY - e.rectTop - element.height / 2
  { x := some (max 0 x), y := some (max 0 y) }

/-- Source `handleMouseMove`. Both branches read the render-time snapshot
`s.elements` (the React state captured by the closure of the handler), and a
`setElements` call replaces the whole pending list, so when both
branches fire in one event the list built by the resize branch from the
snapshot is the one that survives. The `return` in the drag branch
(missing dragged id) exits the whole handler; the `return` in the
resize branch leaves the assignment of the drag branch in place. -/
def handleMouseMove (s : AppState) (e : MouseEvent) : AppState :=
  let afterDrag : Option AppState :=
    match s.draggedElement with
    | none => some s
    | some d =>
      match s.elements.find? (fun el => el.id == d) with
      | none => none
      | some element =>
        some { s with elements := updateElement s.elements d (dragUpdates element e) }
  match afterDrag with
  | none => s
  | some s1 =>
    match s.resizingElement with
    | none => s1
    | some (rid, handle) =>
      match s.elements.find? (fun el => el.id == rid) with
      | none => s1
      | some element =>
        let mouseX := e.clientX - e.rectLeft
        let mouseY := e.clientY - e.rectTop
        { s1 with
          elements := updateElement s.elements rid (resizeUpdates handle element mouseX mouseY) }

/-!
The ECMAScript `parseInt` and `parseFloat` builtins, modelled from their
standard library semantics (they are host functions, not repository
code). A `none` result stands for `NaN`.
-/

/-- ECMAScript whitespace trimming of the input prefix. -/
def jsTrimLeft (s : List Char) : List Char :=
  s.dropWhile fun c => c = ' ' ∨ c = '\t' ∨ c = '\n' ∨ c = '\r'

/-- Leading decimal-digit run and the rest. -/
def takeDigits (s : List Char) : List Char × List Char :=
  (s.takeWhile Char.isDigit, s.dropWhile Char.isDigit)

/-- Value of a list of decimal digits, most significant first. -/
def digitsVal (ds : List Char) : ℕ :=
  ds.foldl (fun acc c => 10 * acc + (c.toNat - '0'.toNat)) 0

/-- Builtin `parseInt(s)` with the radix argument omitted and no `0x` prefix in
play for numeric form fields: trim whitespace, take an optional sign,
then the longest leading run of decimal digits; no digits means `NaN`
(`none`). (The hex-prefix branch of the builtin is irrelevant here:
these inputs come from `<input type="number">` fields.) -/
def jsParseInt (s : String) : Option ℤ :=
  let t := jsTrimLeft s.data
  let (neg, t) :=
    match t with
    | '-' :: rest => (true, rest)
    | '+' :: rest => (false, rest)
    | _ => (false, t)
  let (ds, _) := takeDigits t
  if ds = [] then none
  else some (if neg then -(digitsVal ds : ℤ) else (digitsVal ds : ℤ))

/-- Builtin `parseFloat(s)`: trim whitespace, optional sign, then a decimal
literal `digits [. digits] [e …]` or `. digits [e …]`; no parsable
prefix means `NaN` (`none`). The exponent scales by a power of ten. -/
def jsParseFloat (s : String) : Option ℚ :=
  let t := jsTrimLeft s.data
  let (neg, t) :=
    match t with
    | '-' :: rest => (true, rest)
    | '+' :: rest => (false, rest)
    | _ => (false, t)
  let (intDs, t1) := takeDigits t
  let (fracDs, t2) :=
    match t1 with
    | '.' :: rest => takeDigits rest
    | _ => ([], t1)
  if intDs = [] ∧ fracDs = [] then none
  else
    let mant : ℚ := (digitsVal intDs : ℚ) + (digitsVal fracDs : ℚ) / 10 ^ fracDs.length
    let expPart : ℚ :=
      match t2 with
      | 'e' :: rest | 'E' :: rest =>
        let (eneg, rest) :=
          match rest with
          | '-' :: r => (true, r)
          | '+' :: r => (false, r)
          | _ => (false, rest)
        let (eds, _) := takeDigits rest
        if eds = [] then 1
        else if eneg then (10 ^ digitsVal eds : ℚ)⁻¹ else (10 ^ digitsVal eds : ℚ)
      | _ => 1
    some ((if neg then -mant else mant) * expPart)

/-- The `onChange` of the font-size field: the value assigned to `fontSize`
is `parseInt(e.target.value)`, stored unconditionally (`none` = `NaN`). -/
def fontSizeOnChange (text : String) : Option ℤ :=
  jsParseInt text

/-- The `onChange` value of the label-width field: `parseFloat(e.target.value)`. -/
def labelWidthOnChange (text : String) : Option ℚ :=
  jsParseFloat text

/-- The `onChange` value of the label-height field: `parseFloat(e.target.value)`. -/
def labelHeightOnChange (text : String) : Option ℚ :=
  jsParseFloat text

/-- The `onChange` value of the quantity field: `parseInt(e.target.value)`. -/
def quantityOnChange (text : String) : Option ℤ :=
  jsParseInt text

/-- The style data of one element inside one preview copy: the four
percentage positions plus font size, color and rendered value. -/
structure PlacedItem : Type where
  leftPct : ℚ
  topPct : ℚ
  widthPct : ℚ
  heightPct : ℚ
  fontSize : ℚ
  color : String
  value : String
deriving DecidableEq, Repr

/-- One preview copy: outer size in millimetres, whether a page-break
class is attached, and the placed elements. -/
structure LabelCopy : Type where
  widthMm : ℚ
  heightMm : ℚ
  pageBreak : Bool
  items : List PlacedItem
deriving DecidableEq, Repr

/-- The style block of one element inside a copy:
`left: (element.x / labelWidth) * 100 %` and so on, where `labelWidth`
and `labelHeight` are the `mmToPx` canvas dimensions. -/
def renderItem (labelWidth labelHeight : ℚ) (el : LabelElement) : PlacedItem where
  leftPct := el.x / labelWidth * 100
  topPct := el.y / labelHeight * 100
  widthPct := el.width / labelWidth * 100
  heightPct := el.height / labelHeight * 100
  fontSize := el.fontSize
  color := el.color
  value := el.value

/-- The preview dialog body: `Array.from({ length: quantity })` mapped
to copies of `width`mm × `height`mm, each holding every element at its
percentage position. `needsPageBreak` is
`index > 0 && index % labelsPerPage === 0`; in JavaScript a zero
`labelsPerPage` makes the remainder `NaN`, never equal to `0`, which
the `labelsPerPage ≠ 0` guard reproduces. -/
def renderPreview (els : List LabelElement) (cfg : LabelConfig) : List LabelCopy :=
  let labelWidth := mmToPx cfg.width
  let labelHeight := mmToPx cfg.height
  (List.range cfg.quantity).map fun (index : ℕ) =>
    let labelsPerRow : ℤ := ⌊(210 : ℚ) / cfg.width⌋
    let labelsPerPage : ℤ := labelsPerRow * ⌊(297 : ℚ) / cfg.height⌋
    { widthMm := cfg.width
      heightMm := cfg.height
      pageBreak := decide (0 < index ∧ labelsPerPage ≠ 0 ∧ (index : ℤ) % labelsPerPage = 0)
      items := els.map (renderItem labelWidth labelHeight) }

/-- An operation against the element store, for lifetime statements:
the three mutators of the element list. The `add` carries the
`Date.now()` value observed at creation. -/
inductive StoreOp : Type
  | add (t : ElementType) (now : ℕ)
  | update (id : String) (u : ElementUpdates)
  | remove (id : String)
deriving DecidableEq, Repr

/-- Effect of one store operation on the element list. -/
def applyOp (els : List LabelElement) : StoreOp → List LabelElement
  | .add t now => els ++ [newElement t now]
  | .update id u => updateElement els id u
  | .remove id => deleteFromList els id

/-- Effect of a sequence of store operations, oldest first. -/
def applyOps (els : List LabelElement) (ops : List StoreOp) : List LabelElement :=
  ops.foldl applyOp els

/-- The ids generated by the `add` operations of a sequence, in order. -/
def addIds : List StoreOp → List String
  | [] => []
  | .add t now :: rest => mkId t now :: addIds rest
  | .update _ _ :: rest => addIds rest
  | .remove _ :: rest => addIds rest

/-- Property of a sequence of operations: no update touches the `id`
field (true of every `updateElement` call in the page, which only ever
passes geometry, label, value, fontSize or color). -/
def updatesKeepId : List StoreOp → Prop
  | [] => True
  | .update _ u :: rest => u.id = none ∧ updatesKeepId rest
  | .add _ _ :: rest => updatesKeepId rest
  | .remove _ :: rest => updatesKeepId rest

/-- A single resize pointer-move, as seen by the resize branch: the
handle tag and the canvas-relative pointer position. -/
structure ResizeMove : Type where
  handle : String
  mouseX : ℚ
  mouseY : ℚ
deriving DecidableEq, Repr

/-- Effect of one resize pointer-move on the resized element itself:
the merge of the `switch` assignment into the element. -/
def resizeStep (el : LabelElement) (m : ResizeMove) : LabelElement :=
  mergeElement el (resizeUpdates m.handle el m.mouseX m.mouseY)

/-! Helper lemmas about the embedded operations. -/

lemma resizeUpdates_se (el : LabelElement) (mx my : ℚ) :
    resizeUpdates "se" el mx my =
      { width := some (max 30 (mx - el.x)), height := some (max 20 (my - el.y)),
        x := some el.x, y := some el.y } := rfl

lemma resizeUpdates_sw (el : LabelElement) (mx my : ℚ) :
    resizeUpdates "sw" el mx my =
      { width := some (max 30 (el.x + el.width - mx)), height := some (max 20 (my - el.y)),
        x := some (min mx (el.x + el.width - 30)), y := some el.y } := rfl

lemma resizeUpdates_ne (el : LabelElement) (mx my : ℚ) :
    resizeUpdates "ne" el mx my =
      { width := some (max 30 (mx - el.x)), height := some (max 20 (el.y + el.height - my)),
        x := some el.x, y := some (min my (el.y + el.height - 20)) } := rfl

lemma resizeUpdates_nw (el : LabelElement) (mx my : ℚ) :
    resizeUpdates "nw" el mx my =
      { width := some (max 30 (el.x + el.width - mx)),
        height := some (max 20 (el.y + el.height - my)),
        x := some (min mx (el.x + el.width - 30)),
        y := some (min my (el.y + el.height - 20)) } := rfl

lemma resizeUpdates_other (handle : String) (el : LabelElement) (mx my : ℚ)
    (h1 : handle ≠ "se") (h2 : handle ≠ "sw") (h3 : handle ≠ "ne") (h4 : handle ≠ "nw") :
    resizeUpdates handle el mx my =
      { width := some el.width, height := some el.height,
        x := some el.x, y := some el.y } := by
  simp [resizeUpdates, h1, h2, h3, h4]

/-- The clamp identity behind the anchored edges: moving one edge to
`min m (A - c)` while the extent becomes `max c (A - m)` keeps the
opposite edge at `A`. -/
lemma min_add_max (A m c : ℚ) : min m (A - c) + max c (A - m) = A := by
  rcases le_total m (A - c) with h | h
  · rw [min_eq_left h, max_eq_right (by linarith)]; ring
  · rw [min_eq_right h, max_eq_left (by linarith)]; ring

/-- One resize step never lowers the clamped dimensions below the
minima, and leaves them unchanged on an unrecognised handle. -/
lemma resizeStep_min (el : LabelElement) (m : ResizeMove) :
    (30 ≤ el.width → 30 ≤ (resizeStep el m).width)
    ∧ (20 ≤ el.height → 20 ≤ (resizeStep el m).height) := by
  obtain ⟨h, mx, my⟩ := m
  by_cases h1 : h = "se"
  · subst h1; simp [resizeStep, mergeElement, resizeUpdates_se, le_max_left]
  by_cases h2 : h = "sw"
  · subst h2; simp [resizeStep, mergeElement, resizeUpdates_sw, le_max_left]
  by_cases h3 : h = "ne"
  · subst h3; simp [resizeStep, mergeElement, resizeUpdates_ne, le_max_left]
  by_cases h4 : h = "nw"
  · subst h4; simp [resizeStep, mergeElement, resizeUpdates_nw, le_max_left]
  · simp [resizeStep, mergeElement, resizeUpdates_other h el mx my h1 h2 h3 h4]

/-- Reduction of the handler when only a resize is active and the
resized id is found. -/
lemma handleMouseMove_resize (s : AppState) (e : MouseEvent) (rid handle : String)
    (el : LabelElement)
    (hd : s.draggedElement = none)
    (hr : s.resizingElement = some (rid, handle))
    (hf : s.elements.find? (fun a => a.id == rid) = some el) :
    handleMouseMove s e =
      updateElementOp s rid
        (resizeUpdates handle el (e.clientX - e.rectLeft) (e.clientY - e.rectTop)) := by
  simp only [handleMouseMove, hd, hr, hf, updateElementOp]

/-- Reduction of the handler when only a drag is active and the dragged
id is found. -/
lemma handleMouseMove_drag (s : AppState) (e : MouseEvent) (d : String) (el : LabelElement)
    (hd : s.draggedElement = some d)
    (hr : s.resizingElement = none)
    (hf : s.elements.find? (fun a => a.id == d) = some el) :
    handleMouseMove s e = updateElementOp s d (dragUpdates el e) := by
  simp only [handleMouseMove, hd, hr, hf, updateElementOp]

/-! Claim theorems. -/

/-- C2: one resize pointer-move keeps the anchored opposite edge
exactly fixed — `se` leaves the origin unchanged, `sw` keeps the right
edge `x + width` and leaves `y`, `ne` keeps the bottom edge
`y + height` and leaves `x`, `nw` keeps both edges — for every element
and every pointer position, including when the 30×20 minimum-size
clamp is active. -/
theorem resize_anchor_edges (el : LabelElement) (mx my : ℚ) :
    ((resizeStep el ⟨"se", mx, my⟩).x = el.x ∧ (resizeStep el ⟨"se", mx, my⟩).y = el.y)
    ∧ ((resizeStep el ⟨"sw", mx, my⟩).x + (resizeStep el ⟨"sw", mx, my⟩).width
          = el.x + el.width
        ∧ (resizeStep el ⟨"sw", mx, my⟩).y = el.y)
    ∧ ((resizeStep el ⟨"ne", mx, my⟩).y + (resizeStep el ⟨"ne", mx, my⟩).height
          = el.y + el.height
        ∧ (resizeStep el ⟨"ne", mx, my⟩).x = el.x)
    ∧ ((resizeStep el ⟨"nw", mx, my⟩).x + (resizeStep el ⟨"nw", mx, my⟩).width
          = el.x + el.width
        ∧ (resizeStep el ⟨"nw", mx, my⟩).y + (resizeStep el ⟨"nw", mx, my⟩).height
          = el.y + el.height) := by
  refine ⟨⟨rfl, rfl⟩, ⟨?_, rfl⟩, ⟨?_, rfl⟩, ⟨?_, ?_⟩⟩
  · simpa [resizeStep, mergeElement, resizeUpdates_sw] using
      min_add_max (el.x + el.width) mx 30
  · simpa [resizeStep, mergeElement, resizeUpdates_ne] using
      min_add_max (el.y + el.height) my 20
  · simpa [resizeStep, mergeElement, resizeUpdates_nw] using
      min_add_max (el.x + el.width) mx 30
  · simpa [resizeStep, mergeElement, resizeUpdates_nw] using
      min_add_max (el.y + el.height) my 20

/-- C9: a southwest resize of an element with `x = 10`, `width = 100`
(right edge anchored at `110`) on a pointer-move to `x = 200` yields
`x = 110 - 30 = 80` and `width = 30`. -/
theorem sw_clamp_spec (el : LabelElement) (hx : el.x = 10) (hw : el.width = 100) (my : ℚ) :
    (resizeStep el ⟨"sw", 200, my⟩).x = 80 ∧ (resizeStep el ⟨"sw", 200, my⟩).width = 30 := by
  constructor
  · simp [resizeStep, mergeElement, resizeUpdates_sw, hx, hw]
    norm_num [min_def]
  · simp [resizeStep, mergeElement, resizeUpdates_sw, hx, hw]
    norm_num [max_def]

/-- Demonstration element for the southwest-clamp scenario. -/
def swDemoElement : LabelElement :=
  { id := "text-9", type := .text, label := "Nome", x := 10, y := 10,
    width := 100, height := 30, fontSize := 16, color := "#000000", value := "Texto" }

/-- Witness for C9 at a concrete element and pointer. -/
theorem sw_clamp_spec_witness :
    (resizeStep swDemoElement ⟨"sw", 200, 60⟩).x = 80
    ∧ (resizeStep swDemoElement ⟨"sw", 200, 60⟩).width = 30 :=
  sw_clamp_spec swDemoElement rfl rfl 60

/-- C1: every resize pointer-move from one of the four handles assigns
`width ≥ 30` and `height ≥ 20` — stated both for the real handler
(conjunct one: any element carrying the resized id after the move
satisfies the bounds) and for the element-level step — and consequently
any element whose geometry only ever changes through the resize path
keeps `width ≥ 30` and `height ≥ 20` after any sequence of moves,
starting from any state meeting the minima and in particular from every
`addElement` default. -/
theorem resize_min_size :
    (∀ (s : AppState) (e : MouseEvent) (rid handle : String) (el : LabelElement),
        s.draggedElement = none →
        s.resizingElement = some (rid, handle) →
        s.elements.find? (fun a => a.id == rid) = some el →
        (handle = "se" ∨ handle = "sw" ∨ handle = "ne" ∨ handle = "nw") →
        ∀ el' ∈ (handleMouseMove s e).elements, el'.id = rid →
          30 ≤ el'.width ∧ 20 ≤ el'.height)
    ∧ (∀ (el : LabelElement) (moves : List ResizeMove),
        30 ≤ el.width → 20 ≤ el.height →
        30 ≤ (moves.foldl resizeStep el).width ∧ 20 ≤ (moves.foldl resizeStep el).height)
    ∧ (∀ (t : ElementType) (now : ℕ) (moves : List ResizeMove),
        30 ≤ (moves.foldl resizeStep (newElement t now)).width
        ∧ 20 ≤ (moves.foldl resizeStep (newElement t now)).height) := by
  have step : ∀ (el : LabelElement) (m : ResizeMove),
      30 ≤ el.width → 20 ≤ el.height →
      30 ≤ (resizeStep el m).width ∧ 20 ≤ (resizeStep el m).height := fun el m hw hh =>
    ⟨(resizeStep_min el m).1 hw, (resizeStep_min el m).2 hh⟩
  have seq : ∀ (moves : List ResizeMove) (el : LabelElement),
      30 ≤ el.width → 20 ≤ el.height →
      30 ≤ (moves.foldl resizeStep el).width ∧ 20 ≤ (moves.foldl resizeStep el).height := by
    intro moves
    induction moves with
    | nil => intro el hw hh; exact ⟨hw, hh⟩
    | cons m rest ih =>
      intro el hw hh
      exact ih (resizeStep el m) ((step el m hw hh).1) ((step el m hw hh).2)
  refine ⟨?_, fun el moves hw hh => seq moves el hw hh, fun t now moves => ?_⟩
  · intro s e rid handle el hd hr hf hhandle el' hmem hid
    rw [handleMouseMove_resize s e rid handle el hd hr hf] at hmem
    simp only [updateElementOp, updateElement] at hmem
    rcases List.mem_map.mp hmem with ⟨a, _, rfl⟩
    by_cases hb : (a.id == rid) = true
    · rw [if_pos hb]
      rcases hhandle with h | h | h | h <;> subst h <;>
        simp [mergeElement, resizeUpdates_se, resizeUpdates_sw, resizeUpdates_ne,
          resizeUpdates_nw, le_max_left]
    · rw [if_neg hb] at hid ⊢
      exact absurd (beq_iff_eq.mpr hid) hb
  · refine seq moves (newElement t now) ?_ ?_ <;> cases t <;>
      simp only [newElement, reduceCtorEq, if_false, if_true, reduceIte] <;> norm_num

/-- Witness for C1 at a concrete element and one concrete move. -/
theorem resize_min_size_witness :
    30 ≤ (([⟨"sw", 200, 60⟩] : List ResizeMove).foldl resizeStep swDemoElement).width
    ∧ 20 ≤ (([⟨"sw", 200, 60⟩] : List ResizeMove).foldl resizeStep swDemoElement).height :=
  resize_min_size.2.1 swDemoElement [⟨"sw", 200, 60⟩]
    (by norm_num [swDemoElement]) (by norm_num [swDemoElement])

/-- C5: while a drag of an existing element is active (and no resize),
one pointer-move gives that element top-left coordinates equal to the
canvas-relative pointer position minus half its current width and
height, each clamped with `max 0` — so both are `≥ 0` — and with no
far-edge clamp: whenever the pointer-derived value is non-negative it
is stored exactly, on both axes alike. -/
theorem drag_move_spec (s : AppState) (e : MouseEvent) (d : String) (el : LabelElement)
    (hd : s.draggedElement = some d)
    (hr : s.resizingElement = none)
    (hf : s.elements.find? (fun a => a.id == d) = some el) :
    (∃ el' ∈ (handleMouseMove s e).elements, el'.id = d)
    ∧ (∀ el' ∈ (handleMouseMove s e).elements, el'.id = d →
        el'.x = max 0 (e.clientX - e.rectLeft - el.width / 2)
        ∧ el'.y = max 0 (e.clientY - e.rectTop - el.height / 2)
        ∧ 0 ≤ el'.x ∧ 0 ≤ el'.y
        ∧ (el.width / 2 ≤ e.clientX - e.rectLeft →
            el'.x = e.clientX - e.rectLeft - el.width / 2)
        ∧ (el.height / 2 ≤ e.clientY - e.rectTop →
            el'.y = e.clientY - e.rectTop - el.height / 2)) := by
  rw [handleMouseMove_drag s e d el hd hr hf]
  have hpe0 := List.find?_some hf
  have hpe : (el.id == d) = true := hpe0
  constructor
  · refine ⟨mergeElement el (dragUpdates el e), ?_, ?_⟩
    · simp only [updateElementOp, updateElement]
      refine List.mem_map.mpr ⟨el, List.mem_of_find?_eq_some hf, ?_⟩
      simp only [hpe, if_true, reduceIte]
    · simpa [mergeElement, dragUpdates] using beq_iff_eq.mp hpe
  · intro el' hmem hid
    simp only [updateElementOp, updateElement] at hmem
    rcases List.mem_map.mp hmem with ⟨a, _, rfl⟩
    by_cases hb : (a.id == d) = true
    · rw [if_pos hb]
      refine ⟨rfl, rfl, le_max_left 0 _, le_max_left 0 _, ?_, ?_⟩
      · intro hle
        show max 0 (e.clientX - e.rectLeft - el.width / 2)
          = e.clientX - e.rectLeft - el.width / 2
        exact max_eq_right (by linarith)
      · intro hle
        show max 0 (e.clientY - e.rectTop - el.height / 2)
          = e.clientY - e.rectTop - el.height / 2
        exact max_eq_right (by linarith)
    · rw [if_neg hb] at hid
      exact absurd (beq_iff_eq.mpr hid) hb

/-- Demonstration state with one element being dragged. -/
def dragDemoState : AppState :=
  { elements := [swDemoElement], selectedElement := some "text-9",
    draggedElement := some "text-9", resizingElement := none,
    labelConfig := { width := 50, height := 30, quantity := 10 }, showPreview := false }

/-- Demonstration pointer event at client position (300, 200). -/
def dragDemoEvent : MouseEvent :=
  { clientX := 300, clientY := 200, rectLeft := 0, rectTop := 0 }

/-- The element produced by the demonstration drag move. -/
def dragDemoResult : LabelElement :=
  mergeElement swDemoElement (dragUpdates swDemoElement dragDemoEvent)

/-- Witness for C5 at the concrete drag state and event. -/
theorem drag_move_spec_witness :
    0 ≤ dragDemoResult.x ∧ 0 ≤ dragDemoResult.y :=
  have hmem : dragDemoResult ∈ (handleMouseMove dragDemoState dragDemoEvent).elements :=
    List.mem_singleton.mpr rfl
  have h := (drag_move_spec dragDemoState dragDemoEvent "text-9" swDemoElement
    rfl rfl rfl).2 dragDemoResult hmem rfl
  ⟨h.2.2.1, h.2.2.2.1⟩

/-- C10: when the interaction state holds at most one of drag/resize
(as the UI guarantees: a resize start stops propagation to the drag
start) and the recorded dragged or resizing id matches no element in
the store, a pointer-move leaves the entire application state
unchanged — elements, selection, interaction state and config — and,
the embedding being total, throws nothing. -/
theorem stale_pointer_move_noop (s : AppState) (e : MouseEvent)
    (hexcl : s.draggedElement = none ∨ s.resizingElement = none)
    (hstale : (∃ d, s.draggedElement = some d ∧ ∀ a ∈ s.elements, a.id ≠ d)
      ∨ (∃ rid handle, s.resizingElement = some (rid, handle)
          ∧ ∀ a ∈ s.elements, a.id ≠ rid)) :
    handleMouseMove s e = s := by
  rcases hstale with ⟨d, hd, hnone⟩ | ⟨rid, handle, hr, hnone⟩
  · have hfind : s.elements.find? (fun a => a.id == d) = none := by
      rw [List.find?_eq_none]
      intro a ha
      simp [beq_iff_eq, hnone a ha]
    simp only [handleMouseMove, hd, hfind]
  · have hdnone : s.draggedElement = none := by
      rcases hexcl with h | h
      · exact h
      · rw [h] at hr; exact absurd hr (by simp)
    have hfind : s.elements.find? (fun a => a.id == rid) = none := by
      rw [List.find?_eq_none]
      intro a ha
      simp [beq_iff_eq, hnone a ha]
    simp only [handleMouseMove, hdnone, hr, hfind]

/-- Demonstration state whose recorded dragged id matches no element. -/
def staleDragState : AppState :=
  { elements := [swDemoElement], selectedElement := some "text-9",
    draggedElement := some "ghost", resizingElement := none,
    labelConfig := { width := 50, height := 30, quantity := 10 }, showPreview := false }

/-- Witness for C10 at the concrete stale-drag state. -/
theorem stale_pointer_move_noop_witness :
    handleMouseMove staleDragState dragDemoEvent = staleDragState :=
  stale_pointer_move_noop staleDragState dragDemoEvent (Or.inr rfl)
    (Or.inl ⟨"ghost", rfl, by decide⟩)

/-- C7: `update(id, partialFields)` keeps the list length, replaces the
element at a position by the merge exactly when its id matches and
keeps it untouched otherwise, is the identity on the whole list when no
element carries the id (and, the embedding being total, cannot throw),
and the merge changes only the fields present in the update record:
every absent field keeps its prior value and every present field takes
the given one. -/
theorem updateElement_spec (els : List LabelElement) (id : String) (u : ElementUpdates) :
    (updateElement els id u).length = els.length
    ∧ (∀ (i : ℕ) (a : LabelElement), els[i]? = some a →
        (a.id = id → (updateElement els id u)[i]? = some (mergeElement a u))
        ∧ (a.id ≠ id → (updateElement els id u)[i]? = some a))
    ∧ ((∀ a ∈ els, a.id ≠ id) → updateElement els id u = els)
    ∧ (∀ a : LabelElement,
        (u.id = none → (mergeElement a u).id = a.id)
        ∧ (u.type = none → (mergeElement a u).type = a.type)
        ∧ (u.label = none → (mergeElement a u).label = a.label)
        ∧ (u.x = none → (mergeElement a u).x = a.x)
        ∧ (u.y = none → (mergeElement a u).y = a.y)
        ∧ (u.width = none → (mergeElement a u).width = a.width)
        ∧ (u.height = none → (mergeElement a u).height = a.height)
        ∧ (u.fontSize = none → (mergeElement a u).fontSize = a.fontSize)
        ∧ (u.color = none → (mergeElement a u).color = a.color)
        ∧ (u.value = none → (mergeElement a u).value = a.value)
        ∧ (∀ v, u.x = some v → (mergeElement a u).x = v)
        ∧ (∀ v, u.y = some v → (mergeElement a u).y = v)
        ∧ (∀ v, u.width = some v → (mergeElement a u).width = v)
        ∧ (∀ v, u.height = some v → (mergeElement a u).height = v)
        ∧ (∀ v, u.fontSize = some v → (mergeElement a u).fontSize = v)) := by
  refine ⟨?_, ?_, ?_, ?_⟩
  · simp [updateElement]
  · intro i a ha
    constructor
    · intro hid
      simp only [updateElement, List.getElem?_map, ha, Option.map_some']
      rw [if_pos (beq_iff_eq.mpr hid)]
    · intro hid
      simp only [updateElement, List.getElem?_map, ha, Option.map_some']
      rw [if_neg (by simpa [beq_iff_eq] using hid)]
  · intro hnone
    have : ∀ a ∈ els, (if (a.id == id) = true then mergeElement a u else a) = a := by
      intro a ha
      rw [if_neg (by simpa [beq_iff_eq] using hnone a ha)]
    calc updateElement els id u = els.map (fun a => a) := List.map_congr_left this
    _ = els := List.map_id els
  · intro a
    refine ⟨?_, ?_, ?_, ?_, ?_, ?_, ?_, ?_, ?_, ?_, ?_, ?_, ?_, ?_, ?_⟩ <;>
      first
        | (intro h; simp [mergeElement, h])
        | (intro v h; simp [mergeElement, h])

/-- Update record setting only `x`, for the C7 witness. -/
def xOnlyUpdate : ElementUpdates := { x := some 5 }

/-- Witness for C7 at a concrete list, id and update record. -/
theorem updateElement_spec_witness :
    ((updateElement [swDemoElement] "text-9" xOnlyUpdate)[0]?
        = some (mergeElement swDemoElement xOnlyUpdate))
    ∧ (mergeElement swDemoElement xOnlyUpdate).width = swDemoElement.width
    ∧ (mergeElement swDemoElement xOnlyUpdate).x = 5 :=
  ⟨((updateElement_spec [swDemoElement] "text-9" xOnlyUpdate).2.1 0 swDemoElement rfl).1 rfl,
    ((updateElement_spec [swDemoElement] "text-9" xOnlyUpdate).2.2.2 swDemoElement).2.2.2.2.2.1
      rfl,
    (((updateElement_spec [swDemoElement] "text-9" xOnlyUpdate).2.2.2
        swDemoElement).2.2.2.2.2.2.2.2.2.2.1) 5 rfl⟩


/-- C8 counterexample state: an empty store whose selection still holds
the id `"x"` that no element carries. -/
def staleSelState : AppState :=
  { elements := [], selectedElement := some "x", draggedElement := none,
    resizingElement := none, labelConfig := { width := 50, height := 30, quantity := 10 },
    showPreview := false }

/-- C8 counterexample: no element has id `"x"`, `deleteElement "x"`
leaves the list unchanged, yet the selection is modified (cleared), so
the delete is not a no-op on the selection when the id is absent. -/
theorem delete_stale_selection_counterexample :
    (∀ a ∈ staleSelState.elements, a.id ≠ "x")
    ∧ (deleteElementOp staleSelState "x").elements = staleSelState.elements
    ∧ (deleteElementOp staleSelState "x").selectedElement ≠ staleSelState.selectedElement := by
  refine ⟨by simp [staleSelState], rfl, by simp [deleteElementOp, staleSelState]⟩

/-- C8 (amended): `remove(id)` deletes exactly the elements carrying
the id, preserving the order of the rest; it clears the selection if
and only if the selected id literally equals the given id — which
coincides with "the removed element was selected" whenever the
selection refers to an element of the list or is empty; when no element
has the id the element list is unchanged, and the selection too
provided it does not itself hold that stale id. -/
theorem delete_spec (s : AppState) (id : String) :
    (∀ a ∈ (deleteElementOp s id).elements, a.id ≠ id)
    ∧ (deleteElementOp s id).elements.Sublist s.elements
    ∧ (∀ a ∈ s.elements, a.id ≠ id → a ∈ (deleteElementOp s id).elements)
    ∧ ((deleteElementOp s id).selectedElement
        = if s.selectedElement = some id then none else s.selectedElement)
    ∧ ((∀ a ∈ s.elements, a.id ≠ id) → (deleteElementOp s id).elements = s.elements)
    ∧ (s.selectedElement ≠ some id → (deleteElementOp s id).selectedElement
        = s.selectedElement) := by
  refine ⟨?_, ?_, ?_, rfl, ?_, ?_⟩
  · intro a ha
    have := (List.mem_filter.mp ha).2
    simpa [bne_iff_ne] using this
  · exact List.filter_sublist s.elements
  · intro a ha hne
    exact List.mem_filter.mpr ⟨ha, by simpa [bne_iff_ne] using hne⟩
  · intro hnone
    refine List.filter_eq_self.mpr ?_
    intro a ha
    simpa [bne_iff_ne] using hnone a ha
  · intro hne
    simp [deleteElementOp, hne]

/-- Witness for C8 at a concrete state: deleting an absent id with a
different selection keeps the selection, and the filtered list is a
sublist of the original. -/
theorem delete_spec_witness :
    (deleteElementOp dragDemoState "zzz").selectedElement = dragDemoState.selectedElement
    ∧ (deleteElementOp dragDemoState "text-9").elements.Sublist dragDemoState.elements :=
  ⟨(delete_spec dragDemoState "zzz").2.2.2.2.2 (by decide),
    (delete_spec dragDemoState "text-9").2.1⟩


/-- Mapping ids commutes with `updateElement` when the update record
does not set `id`. -/
lemma updateElement_map_id (els : List LabelElement) (id : String) (u : ElementUpdates)
    (hu : u.id = none) :
    (updateElement els id u).map LabelElement.id = els.map LabelElement.id := by
  simp only [updateElement, List.map_map]
  apply List.map_congr_left
  intro a _
  by_cases hb : (a.id == id) = true
  · simp [Function.comp, hb, mergeElement, hu]
  · simp [Function.comp, hb]

/-- Invariant carrier for the id-uniqueness induction: if the starting
ids together with all upcoming add-generated ids are pairwise distinct
and no update writes `id`, the final ids are pairwise distinct. -/
lemma applyOps_nodup (ops : List StoreOp) :
    ∀ els : List LabelElement, updatesKeepId ops →
      (els.map LabelElement.id ++ addIds ops).Nodup →
      ((applyOps els ops).map LabelElement.id).Nodup := by
  induction ops with
  | nil =>
    intro els _ hnd
    simpa [applyOps, addIds] using hnd
  | cons op rest ih =>
    intro els hkeep hnd
    cases op with
    | add t now =>
      show ((applyOps (els ++ [newElement t now]) rest).map LabelElement.id).Nodup
      apply ih _ hkeep
      have hid : (newElement t now).id = mkId t now := rfl
      simpa [List.map_append, hid, List.append_assoc, addIds] using hnd
    | update id u =>
      obtain ⟨hu, hkeep2⟩ := hkeep
      show ((applyOps (updateElement els id u) rest).map LabelElement.id).Nodup
      apply ih _ hkeep2
      rw [updateElement_map_id els id u hu]
      simpa [addIds] using hnd
    | remove id =>
      show ((applyOps (deleteFromList els id) rest).map LabelElement.id).Nodup
      apply ih _ hkeep
      have hsub : ((deleteFromList els id).map LabelElement.id).Sublist
          (els.map LabelElement.id) := (List.filter_sublist els).map _
      exact List.Nodup.sublist (hsub.append_right _) (by simpa [addIds] using hnd)

/-- C3 counterexample: two `add` calls of the same type in the same
millisecond (`Date.now()` returning 5 twice) generate the identical id
`"text-5"` twice, so the ids of the store are not pairwise distinct. -/
theorem store_ids_clash_counterexample :
    ¬ ((applyOps [] [.add .text 5, .add .text 5]).map LabelElement.id).Nodup := by
  decide

/-- C3 (amended): over the whole lifetime of the store — any sequence
of add, update and remove operations starting from the empty list — all
ids are pairwise distinct, provided no two add operations generate the
same id string (two adds collide exactly when they share the element
type and the `Date.now()` millisecond) and updates never write the `id`
field (no call site does). Freshness of every add-generated id against
the whole history also gives that removed ids are never reused.
Moreover add is the only introduction and appends at the end, update
preserves the id sequence exactly, and remove only deletes, keeping the
order of the remaining elements. -/
theorem store_ids_spec :
    (∀ ops : List StoreOp, updatesKeepId ops → (addIds ops).Nodup →
        ((applyOps [] ops).map LabelElement.id).Nodup)
    ∧ (∀ (els : List LabelElement) (t : ElementType) (now : ℕ),
        (applyOp els (.add t now)).map LabelElement.id
          = els.map LabelElement.id ++ [mkId t now])
    ∧ (∀ (els : List LabelElement) (id : String) (u : ElementUpdates), u.id = none →
        (applyOp els (.update id u)).map LabelElement.id = els.map LabelElement.id)
    ∧ (∀ (els : List LabelElement) (id : String),
        (applyOp els (.remove id)).Sublist els
        ∧ ∀ a ∈ els, a.id ≠ id → a ∈ applyOp els (.remove id)) := by
  refine ⟨?_, ?_, ?_, ?_⟩
  · intro ops hkeep hnd
    exact applyOps_nodup ops [] hkeep (by simpa using hnd)
  · intro els t now
    have hid : (newElement t now).id = mkId t now := rfl
    simp [applyOp, List.map_append, hid]
  · intro els id u hu
    exact updateElement_map_id els id u hu
  · intro els id
    refine ⟨List.filter_sublist els, ?_⟩
    intro a ha hne
    exact List.mem_filter.mpr ⟨ha, by simpa [bne_iff_ne] using hne⟩

/-- Demonstration operation sequence with fresh add ids. -/
def demoOps : List StoreOp :=
  [.add .text 1, .add .price 1, .update "text-1" xOnlyUpdate, .remove "price-1", .add .text 2]

/-- Witness for C3 on the demonstration sequence. -/
theorem store_ids_spec_witness :
    ((applyOps [] demoOps).map LabelElement.id).Nodup :=
  store_ids_spec.1 demoOps (by simp [demoOps, updatesKeepId, xOnlyUpdate]) (by decide)


/-- C4 (documenting the code_bug): the numeric `onChange` handlers pass
`parseInt` / `parseFloat` of the raw text straight into the state
update, so on empty (or non-numeric) input the value stored into
`fontSize`, label `width`, label `height` or `quantity` is `NaN`
(modelled `none`) — the edit is neither rejected nor replaced by a
default — while ordinary numeric text parses as expected. -/
theorem numeric_onChange_nan :
    fontSizeOnChange "" = none
    ∧ quantityOnChange "" = none
    ∧ labelWidthOnChange "" = none
    ∧ labelHeightOnChange "" = none
    ∧ fontSizeOnChange "abc" = none
    ∧ fontSizeOnChange "12" = some 12
    ∧ labelWidthOnChange "2.5" = some (5 / 2) := by
  refine ⟨rfl, rfl, rfl, rfl, rfl, rfl, ?_⟩
  show some ((((2:ℚ) + 5 / 10 ^ 1)) * 1) = some (5 / 2)
  norm_num

/-- C6: the preview renders exactly `quantity` copies; every copy is
`width`mm × `height`mm; and inside every copy each element sits at
`left = (x / (width * 96 / 25.4)) * 100` percent,
`top = (y / (height * 96 / 25.4)) * 100` percent, with width and height
the analogous percentages — the canvas pixel dimensions being the same
`mmToPx` conversion that sizes the edit canvas. -/
theorem preview_spec (els : List LabelElement) (cfg : LabelConfig) :
    (renderPreview els cfg).length = cfg.quantity
    ∧ (∀ i : ℕ, i < cfg.quantity →
        ((renderPreview els cfg)[i]?).map LabelCopy.widthMm = some cfg.width
        ∧ ((renderPreview els cfg)[i]?).map LabelCopy.heightMm = some cfg.height
        ∧ ((renderPreview els cfg)[i]?).map LabelCopy.items
            = some (els.map fun el =>
                { leftPct := el.x / (cfg.width * 96 / 25.4) * 100
                  topPct := el.y / (cfg.height * 96 / 25.4) * 100
                  widthPct := el.width / (cfg.width * 96 / 25.4) * 100
                  heightPct := el.height / (cfg.height * 96 / 25.4) * 100
                  fontSize := el.fontSize
                  color := el.color
                  value := el.value })) := by
  constructor
  · simp [renderPreview]
  · intro i hi
    have hr : (List.range cfg.quantity)[i]? = some i := List.getElem?_range hi
    refine ⟨?_, ?_, ?_⟩ <;>
      simp only [renderPreview, List.getElem?_map, hr, Option.map_some'] <;>
      exact congrArg some (List.map_congr_left fun el _ => rfl)

/-- Demonstration label configuration (the defaults of the page). -/
def previewDemoConfig : LabelConfig := { width := 50, height := 30, quantity := 10 }

/-- Witness for C6 at the default configuration and a single element. -/
theorem preview_spec_witness :
    ((renderPreview [swDemoElement] previewDemoConfig)[0]?).map LabelCopy.widthMm
      = some previewDemoConfig.width :=
  ((preview_spec [swDemoElement] previewDemoConfig).2 0 (by decide)).1

end LabelDesigner
